import Mathlib

/-!
Shallow embedding of the tizianophoto backend core: the Express route handlers of
`registerRoutes` (src/unnamed/part_000) over the `DatabaseStorage` data-access layer
(src/index.ts).  The relational store is modelled as in-memory lists of rows; each
storage method is a pure function on that state, and each route handler is a function
from request data and state to a `Response` and the successor state.
-/

/-! ### Ordering of text columns

SQL `ORDER BY` on a text column is modelled as lexicographic order on the character
list of the string (byte/codepoint collation). -/

def charListLeb : List Char → List Char → Bool
  | [], _ => true
  | _ :: _, [] => false
  | a :: as, b :: bs => if a < b then true else if b < a then false else charListLeb as bs

def strLeb (a b : String) : Bool := charListLeb a.data b.data

theorem charListLeb_total (a b : List Char) : charListLeb a b = true ∨ charListLeb b a = true := by
  induction a generalizing b with
  | nil => left; rfl
  | cons x xs ih =>
    cases b with
    | nil => right; rfl
    | cons y ys =>
      by_cases h1 : x < y
      · left; simp [charListLeb, h1]
      · by_cases h2 : y < x
        · right; simp [charListLeb, h1, h2]
        · rcases ih ys with h | h
          · left; simp [charListLeb, h1, h2, h]
          · right; simp [charListLeb, h1, h2, h]

theorem charListLeb_trans (a b c : List Char) (h1 : charListLeb a b = true)
    (h2 : charListLeb b c = true) : charListLeb a c = true := by
  induction a generalizing b c with
  | nil => rfl
  | cons x xs ih =>
    cases b with
    | nil => simp [charListLeb] at h1
    | cons y ys =>
      cases c with
      | nil => simp [charListLeb] at h2
      | cons z zs =>
        simp only [charListLeb] at h1 h2 ⊢
        rcases lt_trichotomy x y with hxy | hxy | hxy
        · rcases lt_trichotomy y z with hyz | hyz | hyz
          · simp [lt_trans hxy hyz]
          · subst hyz; simp [hxy]
          · simp [asymm hyz, hyz] at h2
        · subst hxy
          simp only [lt_irrefl, if_false] at h1
          rcases lt_trichotomy x z with hxz | hxz | hxz
          · simp [hxz]
          · subst hxz
            simp only [lt_irrefl, if_false] at h2 ⊢
            exact ih ys zs h1 h2
          · simp [asymm hxz, hxz] at h2
        · simp [asymm hxy, hxy] at h1

/-! ### JavaScript `Date` values

A `Date` instant is modelled by its (proleptic Gregorian) calendar components plus the
milliseconds elapsed within the day; `month` is 0-based as in ECMAScript.  For
normalized dates (month < 12, 1 ≤ day ≤ days in month, time < 86400000) the numeric
key `dateKey` is strictly monotone in the instant, so comparisons of `dateKey` model
comparisons of the underlying timestamps (as the store's `gte`/`lte` perform). -/

structure JsDate where
  year : Nat
  month : Nat
  day : Nat
  time : Nat
deriving Repr, DecidableEq

def dateKey (d : JsDate) : Nat :=
  ((d.year * 12 + d.month) * 32 + d.day) * 86400000 + d.time

def isLeapYear (y : Nat) : Bool :=
  (y % 4 == 0 && y % 100 != 0) || (y % 400 == 0)

def daysInMonth (y m : Nat) : Nat :=
  if m == 1 then (if isLeapYear y then 29 else 28)
  else if m == 3 || m == 5 || m == 8 || m == 10 then 30 else 31

/-- `endDate.setMonth(endDate.getMonth() + 3)` from GET /api/availability
(src/unnamed/part_000 lines 73-75): add 3 to the 0-based month, carry into the year,
and, as in ECMAScript MakeDay, let a day number exceeding the target month's length
roll over into the following month.  For a normalized input (day ≤ 31) a single
rollover step suffices, since after subtracting at least 28 days the remainder is ≤ 3. -/
def plus3Months (d : JsDate) : JsDate :=
  let m := d.month + 3
  let y := d.year + m / 12
  let m := m % 12
  if d.day ≤ daysInMonth y m then
    { year := y, month := m, day := d.day, time := d.time }
  else
    let day := d.day - daysInMonth y m
    let m2 := m + 1
    { year := y + m2 / 12, month := m2 % 12, day := day, time := d.time }

/-! ### `parseInt`

JavaScript `parseInt(s)` used on `:id` path parameters: skip leading whitespace, read
an optional sign, then the longest run of leading decimal digits; if that run is empty
the result is NaN, modelled as `none`.  (The radix-16 `0x` prefix of `parseInt` is not
modelled; on decimal inputs and on inputs with no leading digit the model agrees with
JavaScript.) -/
def parseIntJs (s : String) : Option Int :=
  let cs := s.data.dropWhile (fun c => c.isWhitespace)
  let signed : Bool × List Char :=
    match cs with
    | '-' :: rest => (true, rest)
    | '+' :: rest => (false, rest)
    | _ => (false, cs)
  let digits := signed.2.takeWhile (fun c => c.isDigit)
  if digits.isEmpty then none
  else
    let n : Nat := digits.foldl (fun acc c => acc * 10 + (c.toNat - '0'.toNat)) 0
    some (if signed.1 then -(n : Int) else (n : Int))

/-- `eq(table.id, id)` for a successfully parsed numeric id.  A NaN id never reaches
this comparison: the driver serializes NaN as the text NaN, which the store rejects
for an integer column (invalid input syntax), so the operation throws and the route's
catch answers 500 — see the patch routes. -/
def idMatches (pid rid : Int) : Bool := pid == rid

/-! ### Rows (from @shared/schema as used by src/index.ts) -/

structure Review where
  id : Int
  author : String
  content : String
  modifiedContent : Option String
  status : String
  createdAt : JsDate
  updatedAt : JsDate
deriving Repr, DecidableEq

structure AvailabilityDate where
  id : Int
  date : JsDate
  isAvailable : Bool
  createdAt : JsDate
  updatedAt : JsDate
deriving Repr, DecidableEq

structure AvailabilityTimeSlot where
  id : Int
  dateId : Int
  startTime : String
  endTime : String
  isAvailable : Bool
  createdAt : JsDate
  updatedAt : JsDate
deriving Repr, DecidableEq

structure Gallery where
  id : Int
  accessCode : String
deriving Repr, DecidableEq

structure Photo where
  id : Int
  galleryId : Int
  url : String
deriving Repr, DecidableEq

/-- Runtime shape of a POST /api/reviews body as forwarded by the route
(`req.body as InsertReview` is a compile-time cast only: a `status` field present in
the JSON body reaches the insert unfiltered). -/
structure InsertReview where
  author : String
  content : String
  status : Option String
deriving Repr, DecidableEq

structure InsertAvailabilityDate where
  date : JsDate
  isAvailable : Bool
deriving Repr, DecidableEq

structure InsertAvailabilityTimeSlot where
  dateId : Int
  startTime : String
  endTime : String
  isAvailable : Bool
deriving Repr, DecidableEq

/-- GET /api/availability enriches each date row with its slots
(`{ ...date, timeSlots }` in `DatabaseStorage.getAvailabilityDates`). -/
structure AvailabilityDateWithSlots where
  base : AvailabilityDate
  timeSlots : List AvailabilityTimeSlot
deriving Repr, DecidableEq

structure PhotoView where
  id : Int
  url : String
deriving Repr, DecidableEq

/-- Result shape of `DatabaseStorage.getGalleryByAccessCode`. -/
structure GalleryWithPhotoViews where
  id : Int
  accessCode : String
  photos : List PhotoView
deriving Repr, DecidableEq

/-- Response body of GET /api/galleries/access/:code: `{ ...gallery, photos }`, the
spread overriding the gallery's own `photos` with the `getPhotosByGalleryId` rows. -/
structure GalleryAccessView where
  id : Int
  accessCode : String
  photos : List Photo
deriving Repr, DecidableEq

/-- The relational store: one list of rows per table touched by these routes, plus the
serial id counter of each table.  FAQ rows are only ever counted by these routes, so
only their ids are kept. -/
structure Store where
  reviews : List Review
  availabilityDates : List AvailabilityDate
  availabilityTimeSlots : List AvailabilityTimeSlot
  galleries : List Gallery
  photos : List Photo
  faqs : List Int
  nextReviewId : Int
  nextDateId : Int
  nextSlotId : Int
deriving Repr, DecidableEq

/-! ### Sort relations used by `orderBy` -/

def dateRowLe (a b : AvailabilityDate) : Prop := dateKey a.date ≤ dateKey b.date

instance : DecidableRel dateRowLe := fun a b => Nat.decLe _ _

instance : IsTotal AvailabilityDate dateRowLe := ⟨fun a b => Nat.le_total _ _⟩

instance : IsTrans AvailabilityDate dateRowLe := ⟨fun _ _ _ h1 h2 => Nat.le_trans h1 h2⟩

def slotRowLe (a b : AvailabilityTimeSlot) : Prop := strLeb a.startTime b.startTime = true

instance : DecidableRel slotRowLe := fun a b =>
  inferInstanceAs (Decidable (strLeb a.startTime b.startTime = true))

instance : IsTotal AvailabilityTimeSlot slotRowLe :=
  ⟨fun a b => charListLeb_total a.startTime.data b.startTime.data⟩

instance : IsTrans AvailabilityTimeSlot slotRowLe :=
  ⟨fun a b c h1 h2 => charListLeb_trans a.startTime.data b.startTime.data c.startTime.data h1 h2⟩

/-! ### DatabaseStorage (src/index.ts lines 153-378)

Each insert/update takes the instant `now` observed by the store or handler for the
`createdAt`/`updatedAt` timestamp columns. -/

namespace DatabaseStorage

def getApprovedReviews (st : Store) : List Review :=
  st.reviews.filter (fun r => r.status == "approved")

def getPendingReviews (st : Store) : List Review :=
  st.reviews.filter (fun r => r.status == "pending")

/-- `createReview`: insert-returning.  The schema default for an omitted `status`
column is `pending`.  Modelled from the spec: @shared/schema is not under src/; spec
§4.4 places the default-`pending` assignment in the Data Access Layer/schema.  A
`status` present in the insert values is stored as given. -/
def createReview (now : JsDate) (review : InsertReview) (st : Store) : Review × Store :=
  let newReview : Review :=
    { id := st.nextReviewId, author := review.author, content := review.content,
      modifiedContent := none, status := review.status.getD "pending",
      createdAt := now, updatedAt := now }
  (newReview,
   { st with reviews := st.reviews ++ [newReview], nextReviewId := st.nextReviewId + 1 })

/-- The `set` clause of `updateReview`: drizzle skips `undefined` values, so an absent
`modifiedContent` leaves the column unchanged. -/
def updateReviewRow (now : JsDate) (status : String) (modifiedContent : Option String)
    (r : Review) : Review :=
  { r with status := status,
           modifiedContent := match modifiedContent with
             | some s => some s
             | none => r.modifiedContent,
           updatedAt := now }

/-- `updateReview`: update all rows with the given id (at most one), `returning` the
first updated row or `undefined` when none matched. -/
def updateReview (now : JsDate) (pid : Int) (status : String)
    (modifiedContent : Option String) (st : Store) : Option Review × Store :=
  let updated := st.reviews.map (fun r =>
    if idMatches pid r.id then updateReviewRow now status modifiedContent r else r)
  ((updated.filter (fun r => idMatches pid r.id)).head?, { st with reviews := updated })

def createAvailabilityDate (now : JsDate) (v : InsertAvailabilityDate) (st : Store) :
    AvailabilityDate × Store :=
  let newDate : AvailabilityDate :=
    { id := st.nextDateId, date := v.date, isAvailable := v.isAvailable,
      createdAt := now, updatedAt := now }
  (newDate,
   { st with availabilityDates := st.availabilityDates ++ [newDate],
             nextDateId := st.nextDateId + 1 })

def updateAvailabilityDate (now : JsDate) (pid : Int) (isAvailable : Bool)
    (st : Store) : Option AvailabilityDate × Store :=
  let updated := st.availabilityDates.map (fun d =>
    if idMatches pid d.id then { d with isAvailable := isAvailable, updatedAt := now } else d)
  ((updated.filter (fun d => idMatches pid d.id)).head?,
   { st with availabilityDates := updated })

def createAvailabilityTimeSlot (now : JsDate) (v : InsertAvailabilityTimeSlot) (st : Store) :
    AvailabilityTimeSlot × Store :=
  let newSlot : AvailabilityTimeSlot :=
    { id := st.nextSlotId, dateId := v.dateId, startTime := v.startTime,
      endTime := v.endTime, isAvailable := v.isAvailable, createdAt := now, updatedAt := now }
  (newSlot,
   { st with availabilityTimeSlots := st.availabilityTimeSlots ++ [newSlot],
             nextSlotId := st.nextSlotId + 1 })

def updateAvailabilityTimeSlot (now : JsDate) (pid : Int) (isAvailable : Bool)
    (st : Store) : Option AvailabilityTimeSlot × Store :=
  let updated := st.availabilityTimeSlots.map (fun s =>
    if idMatches pid s.id then { s with isAvailable := isAvailable, updatedAt := now } else s)
  ((updated.filter (fun s => idMatches pid s.id)).head?,
   { st with availabilityTimeSlots := updated })

/-- `getAvailabilityTimeSlots(dateId)`: rows with that `dateId`, ordered by
`startTime` ascending. -/
def getAvailabilityTimeSlots (dateId : Int) (st : Store) : List AvailabilityTimeSlot :=
  (st.availabilityTimeSlots.filter (fun s => s.dateId == dateId)).insertionSort slotRowLe

/-- `getAvailabilityDates(startDate, endDate)`: rows with `date` inclusively between
the bounds ordered by `date`, each enriched with its time slots. -/
def getAvailabilityDates (startDate endDate : JsDate) (st : Store) :
    List AvailabilityDateWithSlots :=
  let dates := (st.availabilityDates.filter (fun d =>
    decide (dateKey startDate ≤ dateKey d.date) &&
    decide (dateKey d.date ≤ dateKey endDate))).insertionSort dateRowLe
  dates.map (fun d => { base := d, timeSlots := getAvailabilityTimeSlots d.id st })

def getGalleryByAccessCode (code : String) (st : Store) : Option GalleryWithPhotoViews :=
  match st.galleries.find? (fun g => g.accessCode == code) with
  | none => none
  | some g =>
    some { id := g.id, accessCode := g.accessCode,
           photos := (st.photos.filter (fun p => p.galleryId == g.id)).map
             (fun p => { id := p.id, url := p.url }) }

def getPhotosByGalleryId (galleryId : Int) (st : Store) : List Photo :=
  st.photos.filter (fun p => p.galleryId == galleryId)

def getAdminStats (st : Store) : Nat × Nat × Nat :=
  (st.faqs.length, st.galleries.length,
   (st.reviews.filter (fun r => r.status == "pending")).length)

end DatabaseStorage

/-! ### Responses -/

inductive Body where
  | reviews (rs : List Review)
  | review (r : Review)
  | stats (faqCount galleryCount pendingReviewsCount : Nat)
  | availability (ds : List AvailabilityDateWithSlots)
  | availabilityDate (d : Option AvailabilityDate)
  | timeSlot (s : Option AvailabilityTimeSlot)
  | galleryAccess (g : GalleryAccessView)
  | error (msg : String)
deriving Repr, DecidableEq

structure Response where
  status : Nat
  body : Body
deriving Repr, DecidableEq

/-! ### Route handlers (src/unnamed/part_000)

`Body.availabilityDate none` / `Body.timeSlot none` model `res.json(undefined)`
(Express serializes an `undefined` update result as an empty 200 body). -/

def getReviewsRoute (st : Store) : Response × Store :=
  ({ status := 200, body := Body.reviews (DatabaseStorage.getApprovedReviews st) }, st)

def postReviewsRoute (now : JsDate) (body : InsertReview) (st : Store) : Response × Store :=
  let created := DatabaseStorage.createReview now body st
  ({ status := 201, body := Body.review created.1 }, created.2)

def adminStatsRoute (st : Store) : Response × Store :=
  let s := DatabaseStorage.getAdminStats st
  ({ status := 200, body := Body.stats s.1 s.2.1 s.2.2 }, st)

def pendingReviewsRoute (st : Store) : Response × Store :=
  ({ status := 200, body := Body.reviews (DatabaseStorage.getPendingReviews st) }, st)

/-- PATCH /api/reviews/:id.  When `parseInt(id)` is NaN the driver serializes the id
parameter as the text NaN, which the store rejects for the integer id column, so the
handler's catch turns it into the route's 500 error; otherwise the update runs and an
`undefined` result (no row matched) yields the 404 branch. -/
def patchReviewRoute (now : JsDate) (idStr : String) (status : String)
    (modifiedContent : Option String) (st : Store) : Response × Store :=
  match parseIntJs idStr with
  | none =>
    ({ status := 500, body := Body.error "Errore nell\x27aggiornamento della recensione" }, st)
  | some n =>
    let updated := DatabaseStorage.updateReview now n status modifiedContent st
    match updated.1 with
    | none => ({ status := 404, body := Body.error "Recensione non trovata" }, updated.2)
    | some r => ({ status := 200, body := Body.review r }, updated.2)

def getAvailabilityRoute (now : JsDate) (st : Store) : Response × Store :=
  ({ status := 200,
     body := Body.availability (DatabaseStorage.getAvailabilityDates now (plus3Months now) st) },
   st)

/-- Body of POST /api/availability; the handler reads only `req.body.date` and hardcodes
`isAvailable: true`, so any `isAvailable` carried by the body is ignored. -/
structure AvailabilityPostBody where
  date : JsDate
  isAvailable : Option Bool
deriving Repr, DecidableEq

def postAvailabilityRoute (now : JsDate) (body : AvailabilityPostBody) (st : Store) :
    Response × Store :=
  let created := DatabaseStorage.createAvailabilityDate now
    { date := body.date, isAvailable := true } st
  ({ status := 201, body := Body.availabilityDate (some created.1) }, created.2)

/-- PATCH /api/availability/:id.  A NaN id is rejected by the store (integer column
parameter), surfacing as the catch's 500; otherwise the update result — possibly
`undefined` — is serialized as-is with status 200. -/
def patchAvailabilityDateRoute (now : JsDate) (idStr : String) (isAvailable : Bool)
    (st : Store) : Response × Store :=
  match parseIntJs idStr with
  | none =>
    ({ status := 500, body := Body.error "Errore nell\x27aggiornamento della disponibilit\u00e0" }, st)
  | some n =>
    let updated := DatabaseStorage.updateAvailabilityDate now n isAvailable st
    ({ status := 200, body := Body.availabilityDate updated.1 }, updated.2)

/-- POST /api/availability/:id/timeslots.  When `parseInt(id)` is NaN the insert value
for the integer `dateId` column is rejected by the store, so the handler's catch turns
it into the route's 500 error; otherwise the slot is inserted with
`isAvailable: req.body.isAvailable ?? true`. -/
def postTimeslotsRoute (now : JsDate) (idStr : String) (startTime endTime : String)
    (isAvailable : Option Bool) (st : Store) : Response × Store :=
  match parseIntJs idStr with
  | none => ({ status := 500, body := Body.error "Errore nella creazione dello slot orario" }, st)
  | some n =>
    let created := DatabaseStorage.createAvailabilityTimeSlot now
      { dateId := n, startTime := startTime, endTime := endTime,
        isAvailable := isAvailable.getD true } st
    ({ status := 201, body := Body.timeSlot (some created.1) }, created.2)

/-- PATCH /api/availability/timeslots/:id.  A NaN id is rejected by the store (integer
column parameter), surfacing as the catch's 500; otherwise the update result —
possibly `undefined` — is serialized as-is with status 200. -/
def patchTimeslotRoute (now : JsDate) (idStr : String) (isAvailable : Bool) (st : Store) :
    Response × Store :=
  match parseIntJs idStr with
  | none =>
    ({ status := 500, body := Body.error "Errore nell\x27aggiornamento dello slot orario" }, st)
  | some n =>
    let updated := DatabaseStorage.updateAvailabilityTimeSlot now n isAvailable st
    ({ status := 200, body := Body.timeSlot updated.1 }, updated.2)

def galleryAccessRoute (code : String) (st : Store) : Response × Store :=
  match DatabaseStorage.getGalleryByAccessCode code st with
  | none => ({ status := 404, body := Body.error "Galleria non trovata" }, st)
  | some g =>
    let photos := DatabaseStorage.getPhotosByGalleryId g.id st
    ({ status := 200,
       body := Body.galleryAccess { id := g.id, accessCode := g.accessCode, photos := photos } },
     st)

/-! ### The admin gate -/

/-- The seven admin-only routes registered with the `requireAdmin` middleware. -/
inductive AdminReq where
  | adminStats
  | pendingReviews
  | patchReview (idStr status : String) (modifiedContent : Option String)
  | postAvailability (body : AvailabilityPostBody)
  | patchAvailabilityDate (idStr : String) (isAvailable : Bool)
  | postTimeslots (idStr startTime endTime : String) (isAvailable : Option Bool)
  | patchTimeslot (idStr : String) (isAvailable : Bool)
deriving Repr, DecidableEq

def runAdminRoute (now : JsDate) (r : AdminReq) (st : Store) : Response × Store :=
  match r with
  | AdminReq.adminStats => adminStatsRoute st
  | AdminReq.pendingReviews => pendingReviewsRoute st
  | AdminReq.patchReview idStr status mc => patchReviewRoute now idStr status mc st
  | AdminReq.postAvailability body => postAvailabilityRoute now body st
  | AdminReq.patchAvailabilityDate idStr b => patchAvailabilityDateRoute now idStr b st
  | AdminReq.postTimeslots idStr s e b => postTimeslotsRoute now idStr s e b st
  | AdminReq.patchTimeslot idStr b => patchTimeslotRoute now idStr b st

/-- Modelled from the spec: `setupAuth` / `requireAdmin` live in `./auth`, which is not
under src/.  Per spec §4.1 and §7, the gate checks whether the request's session
identifies an authenticated admin user (`session = some adminId`); if not, it fails
with an Unauthorized error and the underlying handler never executes. -/
def handleAdmin (session : Option Nat) (now : JsDate) (r : AdminReq) (st : Store) :
    Response × Store :=
  match session with
  | none => ({ status := 401, body := Body.error "Unauthorized" }, st)
  | some _ => runAdminRoute now r st

/-! ### Sample data used by witnesses and counterexamples -/

def d0 : JsDate := { year := 2025, month := 0, day := 1, time := 0 }

def now0 : JsDate := { year := 2025, month := 5, day := 1, time := 0 }

def n1 : JsDate := { year := 2025, month := 0, day := 2, time := 0 }

def n2 : JsDate := { year := 2025, month := 0, day := 3, time := 0 }

def emptyStore : Store :=
  { reviews := [], availabilityDates := [], availabilityTimeSlots := [],
    galleries := [], photos := [], faqs := [],
    nextReviewId := 1, nextDateId := 1, nextSlotId := 1 }

def review1 : Review :=
  { id := 1, author := "bob", content := "nice", modifiedContent := none,
    status := "pending", createdAt := d0, updatedAt := d0 }

def stReviews : Store := { emptyStore with reviews := [review1], nextReviewId := 2 }

def slot1 : AvailabilityTimeSlot :=
  { id := 1, dateId := 1, startTime := "09:00", endTime := "10:00", isAvailable := true,
    createdAt := d0, updatedAt := d0 }

def slot2 : AvailabilityTimeSlot :=
  { id := 2, dateId := 1, startTime := "08:00", endTime := "08:30", isAvailable := true,
    createdAt := d0, updatedAt := d0 }

def stSlots : Store := { emptyStore with availabilityTimeSlots := [slot1], nextSlotId := 2 }

def date1 : AvailabilityDate :=
  { id := 1, date := { year := 2025, month := 6, day := 15, time := 0 }, isAvailable := true,
    createdAt := d0, updatedAt := d0 }

def date2 : AvailabilityDate :=
  { id := 2, date := { year := 2026, month := 6, day := 15, time := 0 }, isAvailable := true,
    createdAt := d0, updatedAt := d0 }

def stAvail : Store :=
  { emptyStore with availabilityDates := [date2, date1],
                    availabilityTimeSlots := [slot1, slot2],
                    nextDateId := 3, nextSlotId := 3 }

def e0 : AvailabilityDateWithSlots := { base := date1, timeSlots := [slot2, slot1] }

def g1 : Gallery := { id := 1, accessCode := "CODE" }

def p1 : Photo := { id := 1, galleryId := 1, url := "u1" }

def p2 : Photo := { id := 2, galleryId := 2, url := "u2" }

def stG : Store := { emptyStore with galleries := [g1], photos := [p1, p2] }

def reviewApproved : Review :=
  { id := 1, author := "a", content := "c", modifiedContent := none,
    status := "approved", createdAt := now0, updatedAt := now0 }

/-! ### Generic helper lemmas about guarded row updates -/

theorem map_if_eq_self {α : Type} (p : α → Bool) (f : α → α) (l : List α)
    (h : ∀ a ∈ l, p a = false) : (l.map fun a => if p a then f a else a) = l := by
  induction l with
  | nil => rfl
  | cons x xs ih =>
    have hx := h x (List.mem_cons_self x xs)
    simp only [List.map_cons, hx, Bool.false_eq_true, if_false]
    rw [ih (fun a ha => h a (List.mem_cons_of_mem x ha))]

theorem filter_false_eq_nil {α : Type} (p : α → Bool) (l : List α)
    (h : ∀ a ∈ l, p a = false) : l.filter p = [] := by
  induction l with
  | nil => rfl
  | cons x xs ih =>
    have hx := h x (List.mem_cons_self x xs)
    simp only [List.filter_cons, hx, Bool.false_eq_true, if_false]
    exact ih (fun a ha => h a (List.mem_cons_of_mem x ha))

theorem map_update_twice {α : Type} (p : α → Bool) (f g : α → α)
    (hid : ∀ a, p a = true → p (f a) = true ∧ g (f a) = g a) (l : List α) :
    ((l.map fun a => if p a then f a else a).map fun a => if p a then g a else a) =
      (l.map fun a => if p a then g a else a) := by
  rw [List.map_map]
  apply List.map_congr_left
  intro a _
  by_cases hc : p a
  · obtain ⟨h1, h2⟩ := hid a hc
    simp [Function.comp, hc, h1, h2]
  · simp [Function.comp, hc]

theorem mem_map_update_elim {α : Type} (p : α → Bool) (f : α → α) (l : List α) (y : α)
    (hy : y ∈ l.map fun a => if p a then f a else a) (hp : p y = true) :
    ∃ z ∈ l, y = f z ∧ p z = true := by
  obtain ⟨z, hz, rfl⟩ := List.mem_map.mp hy
  by_cases hc : p z
  · exact ⟨z, hz, by simp [hc], hc⟩
  · simp only [hc, Bool.false_eq_true, if_false] at hp

theorem p_map_update {α : Type} (p : α → Bool) (f : α → α) (hpf : ∀ a, p (f a) = p a)
    (a : α) : p (if p a then f a else a) = p a := by
  by_cases hc : p a <;> simp [hc, hpf]

/-! ### Route-level helper lemmas -/

theorem patchReview_no_match (now : JsDate) (idStr status : String) (mc : Option String)
    (st : Store) (n : Int) (hparse : parseIntJs idStr = some n)
    (h : ∀ r ∈ st.reviews, idMatches n r.id = false) :
    patchReviewRoute now idStr status mc st =
      ({ status := 404, body := Body.error "Recensione non trovata" }, st) := by
  have hmap := map_if_eq_self (fun r => idMatches n r.id)
    (DatabaseStorage.updateReviewRow now status mc) st.reviews h
  have hfil := filter_false_eq_nil (fun r => idMatches n r.id) st.reviews h
  simp only [patchReviewRoute, hparse, DatabaseStorage.updateReview, hmap, hfil, List.head?]

theorem patchAvailabilityDate_no_match (now : JsDate) (idStr : String) (b : Bool) (st : Store)
    (n : Int) (hparse : parseIntJs idStr = some n)
    (h : ∀ d ∈ st.availabilityDates, idMatches n d.id = false) :
    patchAvailabilityDateRoute now idStr b st =
      ({ status := 200, body := Body.availabilityDate none }, st) := by
  have hmap := map_if_eq_self (fun d => idMatches n d.id)
    (fun d => { d with isAvailable := b, updatedAt := now }) st.availabilityDates h
  have hfil := filter_false_eq_nil (fun d => idMatches n d.id)
    st.availabilityDates h
  simp only [patchAvailabilityDateRoute, hparse, DatabaseStorage.updateAvailabilityDate,
    hmap, hfil, List.head?]

theorem patchTimeslot_no_match (now : JsDate) (idStr : String) (b : Bool) (st : Store)
    (n : Int) (hparse : parseIntJs idStr = some n)
    (h : ∀ s ∈ st.availabilityTimeSlots, idMatches n s.id = false) :
    patchTimeslotRoute now idStr b st =
      ({ status := 200, body := Body.timeSlot none }, st) := by
  have hmap := map_if_eq_self (fun s => idMatches n s.id)
    (fun s => { s with isAvailable := b, updatedAt := now }) st.availabilityTimeSlots h
  have hfil := filter_false_eq_nil (fun s => idMatches n s.id)
    st.availabilityTimeSlots h
  simp only [patchTimeslotRoute, hparse, DatabaseStorage.updateAvailabilityTimeSlot,
    hmap, hfil, List.head?]

/-! ### Claims -/

/-- Claim C1: every admin-only route (GET /api/admin/stats, GET /api/reviews/pending,
PATCH /api/reviews/:id, POST /api/availability, PATCH /api/availability/:id,
POST /api/availability/:id/timeslots, PATCH /api/availability/timeslots/:id) invoked
without a valid admin session never executes its handler body: the store is unchanged
(no row created or updated) and the response is the gate's authorization failure. -/
theorem admin_gate_blocks_unauthenticated (now : JsDate) (r : AdminReq) (st : Store) :
    handleAdmin none now r st = ({ status := 401, body := Body.error "Unauthorized" }, st) :=
  rfl

/-- Claim C4: a PATCH /api/reviews/:id request whose numeric id matches no existing
review responds 404 with an error body and leaves the store unchanged.  (A
non-parseable id takes the store-error path instead — see C10.) -/
theorem patch_review_missing_id_404 (now : JsDate) (idStr status : String)
    (mc : Option String) (st : Store) (n : Int) (hparse : parseIntJs idStr = some n)
    (h : ∀ r ∈ st.reviews, idMatches n r.id = false) :
    patchReviewRoute now idStr status mc st =
      ({ status := 404, body := Body.error "Recensione non trovata" }, st) :=
  patchReview_no_match now idStr status mc st n hparse h

theorem patch_review_missing_id_404_witness :
    patchReviewRoute n1 "2" "approved" none stReviews =
      ({ status := 404, body := Body.error "Recensione non trovata" }, stReviews) :=
  patch_review_missing_id_404 n1 "2" "approved" none stReviews 2 (by decide) (by decide)

/-- Claim C5: a PATCH /api/availability/:id or PATCH /api/availability/timeslots/:id
request whose id matches no existing row responds 200 with an empty body (the
`undefined` update result serialized as-is), not 404. -/
theorem patch_availability_missing_id_200 (now : JsDate) (idStr : String) (b : Bool)
    (st : Store) (n : Int) (hparse : parseIntJs idStr = some n)
    (hd : ∀ d ∈ st.availabilityDates, idMatches n d.id = false)
    (hs : ∀ s ∈ st.availabilityTimeSlots, idMatches n s.id = false) :
    patchAvailabilityDateRoute now idStr b st =
      ({ status := 200, body := Body.availabilityDate none }, st) ∧
    patchTimeslotRoute now idStr b st =
      ({ status := 200, body := Body.timeSlot none }, st) :=
  ⟨patchAvailabilityDate_no_match now idStr b st n hparse hd,
   patchTimeslot_no_match now idStr b st n hparse hs⟩

theorem patch_availability_missing_id_200_witness :
    patchAvailabilityDateRoute n1 "7" false stAvail =
      ({ status := 200, body := Body.availabilityDate none }, stAvail) ∧
    patchTimeslotRoute n1 "7" false stAvail =
      ({ status := 200, body := Body.timeSlot none }, stAvail) :=
  patch_availability_missing_id_200 n1 "7" false stAvail 7 (by decide) (by decide) (by decide)

/-- Claim C10 counterexample: at the concrete input id "abc" (parseInt yields NaN) the
PATCH /api/reviews/:id response is 500, not the claimed 404: the driver serializes the
NaN id parameter as text, the store rejects it for the integer id column, and the
route's catch answers the update-failure error. -/
theorem patch_review_nan_claim_counterexample :
    parseIntJs "abc" = none ∧
    (patchReviewRoute n1 "abc" "approved" none stReviews).1.status = 500 ∧
    (patchReviewRoute n1 "abc" "approved" none stReviews).1.status ≠ 404 ∧
    (patchReviewRoute n1 "abc" "approved" none stReviews).1 ≠
      ({ status := 404, body := Body.error "Recensione non trovata" } : Response) :=
  ⟨rfl, rfl, by decide, by decide⟩

/-- Claim C10 (amended): a PATCH /api/reviews/:id request whose id path segment is not
parseable as an integer yields NaN from parseInt; the parameterized update is rejected
by the store (invalid input syntax for the integer id column) and the route responds
500 with its update-failure error body and the store unchanged — not 404: a
non-numeric id takes the store-error path, unlike a non-existent numeric id. -/
theorem patch_review_nan_500 (now : JsDate) (idStr status : String) (mc : Option String)
    (st : Store) (h : parseIntJs idStr = none) :
    patchReviewRoute now idStr status mc st =
      ({ status := 500,
         body := Body.error "Errore nell\x27aggiornamento della recensione" }, st) := by
  simp only [patchReviewRoute, h]

theorem patch_review_nan_500_witness :
    patchReviewRoute n1 "abc" "approved" none stReviews =
      ({ status := 500,
         body := Body.error "Errore nell\x27aggiornamento della recensione" }, stReviews) :=
  patch_review_nan_500 n1 "abc" "approved" none stReviews (by decide)

/-- Claim C3 counterexample: the claim says every review created via POST /api/reviews
has status pending until an admin patches it.  A POST body carrying
`status: "approved"` is forwarded unfiltered to the insert, so the created review is
approved immediately and GET /api/reviews returns it with no admin action. -/
theorem review_pending_claim_counterexample :
    (postReviewsRoute now0 { author := "a", content := "c", status := some "approved" }
        emptyStore).1 = { status := 201, body := Body.review reviewApproved } ∧
    reviewApproved.status ≠ "pending" ∧
    (getReviewsRoute
        (postReviewsRoute now0 { author := "a", content := "c", status := some "approved" }
          emptyStore).2).1 =
      { status := 200, body := Body.reviews [reviewApproved] } :=
  ⟨rfl, by decide, rfl⟩

/-- Claim C3 (amended): every review created via POST /api/reviews whose body does not
supply a status is created with status pending, the POST only appends the new row, and
GET /api/reviews returns exactly the approved reviews (never a pending or rejected
one) without touching the store. -/
theorem review_default_pending_and_public_filter (now : JsDate) (body : InsertReview)
    (st : Store) (h : body.status = none) :
    (DatabaseStorage.createReview now body st).1.status = "pending" ∧
    (postReviewsRoute now body st).2.reviews =
      st.reviews ++ [(DatabaseStorage.createReview now body st).1] ∧
    (getReviewsRoute st).1 =
      { status := 200,
        body := Body.reviews (st.reviews.filter fun r => r.status == "approved") } ∧
    (getReviewsRoute st).2 = st ∧
    ∀ r ∈ DatabaseStorage.getApprovedReviews st, r.status = "approved" := by
  refine ⟨by simp [DatabaseStorage.createReview, h], rfl, rfl, rfl, ?_⟩
  intro r hr
  exact eq_of_beq (List.mem_filter.mp hr).2

def insNoStatus : InsertReview := { author := "a", content := "c", status := none }

theorem review_default_pending_witness :
    (DatabaseStorage.createReview now0 insNoStatus emptyStore).1.status = "pending" ∧
    (postReviewsRoute now0 insNoStatus emptyStore).2.reviews =
      emptyStore.reviews ++ [(DatabaseStorage.createReview now0 insNoStatus emptyStore).1] ∧
    (getReviewsRoute emptyStore).1 =
      { status := 200,
        body := Body.reviews (emptyStore.reviews.filter fun r => r.status == "approved") } ∧
    (getReviewsRoute emptyStore).2 = emptyStore ∧
    ∀ r ∈ DatabaseStorage.getApprovedReviews emptyStore, r.status = "approved" :=
  review_default_pending_and_public_filter now0 insNoStatus emptyStore rfl

/-- Claim C6: GET /api/galleries/access/:code responds 404 when no gallery carries the
access code, and otherwise responds 200 with the found gallery's id and accessCode
plus exactly the photos whose galleryId equals that gallery's id; the store is never
changed. -/
theorem gallery_access_code_lookup (code : String) (st : Store) :
    (galleryAccessRoute code st).2 = st ∧
    ((∀ g ∈ st.galleries, g.accessCode ≠ code) →
      (galleryAccessRoute code st).1 =
        { status := 404, body := Body.error "Galleria non trovata" }) ∧
    ∀ g, st.galleries.find? (fun g2 => g2.accessCode == code) = some g →
      g.accessCode = code ∧
      (galleryAccessRoute code st).1 =
        { status := 200,
          body := Body.galleryAccess
            { id := g.id, accessCode := g.accessCode,
              photos := st.photos.filter fun p => p.galleryId == g.id } } := by
  refine ⟨?_, ?_, ?_⟩
  · cases h : st.galleries.find? (fun g2 => g2.accessCode == code) with
    | none => simp [galleryAccessRoute, DatabaseStorage.getGalleryByAccessCode, h]
    | some g => simp [galleryAccessRoute, DatabaseStorage.getGalleryByAccessCode, h]
  · intro hno
    have hfind : st.galleries.find? (fun g2 => g2.accessCode == code) = none := by
      apply List.find?_eq_none.mpr
      intro x hx
      simp [hno x hx]
    simp [galleryAccessRoute, DatabaseStorage.getGalleryByAccessCode, hfind]
  · intro g hg
    have hp := List.find?_some hg
    refine ⟨eq_of_beq hp, ?_⟩
    simp [galleryAccessRoute, DatabaseStorage.getGalleryByAccessCode,
      DatabaseStorage.getPhotosByGalleryId, hg]

theorem gallery_access_code_lookup_witness :
    ((galleryAccessRoute "X" stG).1 =
      { status := 404, body := Body.error "Galleria non trovata" }) ∧
    (g1.accessCode = "CODE" ∧
      (galleryAccessRoute "CODE" stG).1 =
        { status := 200,
          body := Body.galleryAccess
            { id := g1.id, accessCode := g1.accessCode,
              photos := stG.photos.filter fun p => p.galleryId == g1.id } }) :=
  ⟨(gallery_access_code_lookup "X" stG).2.1 (by decide),
   (gallery_access_code_lookup "CODE" stG).2.2 g1 rfl⟩

/-- Claim C7: POST /api/availability creates its date with isAvailable forced to true
regardless of any isAvailable carried by the body, and POST
/api/availability/:id/timeslots creates its slot with the body's isAvailable when
provided and true when it is omitted. -/
theorem create_availability_isAvailable_defaults (now : JsDate)
    (body : AvailabilityPostBody) (st : Store) (idStr : String) (n : Int)
    (h : parseIntJs idStr = some n) (startT endT : String) (iav : Option Bool)
    (st2 : Store) :
    (postAvailabilityRoute now body st).1 =
      { status := 201,
        body := Body.availabilityDate (some
          { id := st.nextDateId, date := body.date, isAvailable := true,
            createdAt := now, updatedAt := now }) } ∧
    (postTimeslotsRoute now idStr startT endT iav st2).1 =
      { status := 201,
        body := Body.timeSlot (some
          { id := st2.nextSlotId, dateId := n, startTime := startT, endTime := endT,
            isAvailable := iav.getD true, createdAt := now, updatedAt := now }) } := by
  constructor
  · rfl
  · simp [postTimeslotsRoute, h, DatabaseStorage.createAvailabilityTimeSlot]

theorem create_availability_isAvailable_defaults_witness :
    (postAvailabilityRoute now0 { date := d0, isAvailable := some false } emptyStore).1 =
      { status := 201,
        body := Body.availabilityDate (some
          { id := 1, date := d0, isAvailable := true,
            createdAt := now0, updatedAt := now0 }) } ∧
    (postTimeslotsRoute now0 "1" "09:00" "10:00" none emptyStore).1 =
      { status := 201,
        body := Body.timeSlot (some
          { id := 1, dateId := 1, startTime := "09:00", endTime := "10:00",
            isAvailable := true, createdAt := now0, updatedAt := now0 }) } ∧
    (postTimeslotsRoute now0 "1" "09:00" "10:00" (some false) emptyStore).1 =
      { status := 201,
        body := Body.timeSlot (some
          { id := 1, dateId := 1, startTime := "09:00", endTime := "10:00",
            isAvailable := false, createdAt := now0, updatedAt := now0 }) } :=
  ⟨(create_availability_isAvailable_defaults now0 { date := d0, isAvailable := some false }
      emptyStore "1" 1 (by decide) "09:00" "10:00" none emptyStore).1,
   (create_availability_isAvailable_defaults now0 { date := d0, isAvailable := some false }
      emptyStore "1" 1 (by decide) "09:00" "10:00" none emptyStore).2,
   (create_availability_isAvailable_defaults now0 { date := d0, isAvailable := some false }
      emptyStore "1" 1 (by decide) "09:00" "10:00" (some false) emptyStore).2⟩

/-- Claim C9 (implicit): POST /api/reviews forwards the request body unfiltered to
createReview, so a body supplying a status (e.g. "approved") yields a created review
carrying that client-chosen status, and with "approved" it is returned by
GET /api/reviews immediately, with no admin action. -/
theorem review_status_passthrough (now : JsDate) (a c s : String) (st : Store) :
    (postReviewsRoute now { author := a, content := c, status := some s } st).1 =
      { status := 201,
        body := Body.review
          { id := st.nextReviewId, author := a, content := c, modifiedContent := none,
            status := s, createdAt := now, updatedAt := now } } ∧
    ({ id := st.nextReviewId, author := a, content := c, modifiedContent := none,
       status := "approved", createdAt := now, updatedAt := now } : Review) ∈
      DatabaseStorage.getApprovedReviews
        (postReviewsRoute now { author := a, content := c, status := some "approved" } st).2 := by
  constructor
  · rfl
  · apply List.mem_filter.mpr
    constructor
    · exact List.mem_append_right st.reviews (List.mem_singleton.mpr rfl)
    · rfl

/-- Claim C2: GET /api/availability at clock instant D responds 200 without changing
the store, with exactly the AvailabilityDate rows whose date lies inclusively in
[D, D plus 3 months] (as computed by setMonth), ordered ascending by date, each
enriched with exactly its AvailabilityTimeSlot rows (matching dateId) ordered
ascending by startTime. -/
theorem availability_window_contents (now : JsDate) (st : Store) :
    (getAvailabilityRoute now st).2 = st ∧
    (getAvailabilityRoute now st).1.status = 200 ∧
    (getAvailabilityRoute now st).1.body =
      Body.availability (DatabaseStorage.getAvailabilityDates now (plus3Months now) st) ∧
    ((DatabaseStorage.getAvailabilityDates now (plus3Months now) st).map
        AvailabilityDateWithSlots.base).Perm
      (st.availabilityDates.filter fun d =>
        decide (dateKey now ≤ dateKey d.date) &&
        decide (dateKey d.date ≤ dateKey (plus3Months now))) ∧
    (DatabaseStorage.getAvailabilityDates now (plus3Months now) st).Pairwise
      (fun a b => dateKey a.base.date ≤ dateKey b.base.date) ∧
    (∀ e ∈ DatabaseStorage.getAvailabilityDates now (plus3Months now) st,
      (dateKey now ≤ dateKey e.base.date ∧
        dateKey e.base.date ≤ dateKey (plus3Months now)) ∧
      e.timeSlots.Perm
        (st.availabilityTimeSlots.filter fun s => s.dateId == e.base.id) ∧
      e.timeSlots.Pairwise slotRowLe ∧
      ∀ s ∈ e.timeSlots, s.dateId = e.base.id) ∧
    ∀ d ∈ st.availabilityDates,
      dateKey now ≤ dateKey d.date → dateKey d.date ≤ dateKey (plus3Months now) →
      ∃ e ∈ DatabaseStorage.getAvailabilityDates now (plus3Months now) st, e.base = d := by
  have hdef : DatabaseStorage.getAvailabilityDates now (plus3Months now) st =
      ((st.availabilityDates.filter fun d =>
          decide (dateKey now ≤ dateKey d.date) &&
          decide (dateKey d.date ≤ dateKey (plus3Months now))).insertionSort
        dateRowLe).map
        (fun d =>
          { base := d, timeSlots := DatabaseStorage.getAvailabilityTimeSlots d.id st }) :=
    rfl
  refine ⟨rfl, rfl, rfl, ?_, ?_, ?_, ?_⟩
  · rw [hdef, List.map_map]
    have hcomp : (AvailabilityDateWithSlots.base ∘ fun d =>
        ({ base := d, timeSlots := DatabaseStorage.getAvailabilityTimeSlots d.id st } :
          AvailabilityDateWithSlots)) = id := rfl
    rw [hcomp, List.map_id]
    exact List.perm_insertionSort _ _
  · rw [hdef]
    apply List.pairwise_map.mpr
    exact List.sorted_insertionSort dateRowLe _
  · intro e he
    rw [hdef] at he
    obtain ⟨d, hd, rfl⟩ := List.mem_map.mp he
    have hdF := (List.perm_insertionSort dateRowLe _).subset hd
    obtain ⟨hdMem, hdP⟩ := List.mem_filter.mp hdF
    rw [Bool.and_eq_true] at hdP
    refine ⟨⟨of_decide_eq_true hdP.1, of_decide_eq_true hdP.2⟩, ?_, ?_, ?_⟩
    · exact List.perm_insertionSort slotRowLe _
    · exact List.sorted_insertionSort slotRowLe _
    · intro s hs
      have hs2 := (List.perm_insertionSort slotRowLe _).subset hs
      exact eq_of_beq (List.mem_filter.mp hs2).2
  · intro d hd h1 h2
    have hdF : d ∈ st.availabilityDates.filter fun d2 =>
        decide (dateKey now ≤ dateKey d2.date) &&
        decide (dateKey d2.date ≤ dateKey (plus3Months now)) :=
      List.mem_filter.mpr ⟨hd, by
        rw [Bool.and_eq_true]
        exact ⟨decide_eq_true h1, decide_eq_true h2⟩⟩
    have hdS := (List.perm_insertionSort dateRowLe _).symm.subset hdF
    rw [hdef]
    exact ⟨_, List.mem_map_of_mem _ hdS, rfl⟩

theorem availability_window_contents_witness :
    ((dateKey now0 ≤ dateKey e0.base.date ∧
        dateKey e0.base.date ≤ dateKey (plus3Months now0)) ∧
      e0.timeSlots.Perm
        (stAvail.availabilityTimeSlots.filter fun s => s.dateId == e0.base.id) ∧
      e0.timeSlots.Pairwise slotRowLe ∧
      (∀ s ∈ e0.timeSlots, s.dateId = e0.base.id)) ∧
    ∃ e ∈ DatabaseStorage.getAvailabilityDates now0 (plus3Months now0) stAvail,
      e.base = date1 :=
  ⟨(availability_window_contents now0 stAvail).2.2.2.2.2.1 e0 (by decide),
   (availability_window_contents now0 stAvail).2.2.2.2.2.2 date1 (by decide) (by decide)
     (by decide)⟩

/-- Claim C8 counterexample: `updateAvailabilityTimeSlot` refreshes `updatedAt` on
every PATCH, so issuing the same PATCH /api/availability/timeslots/:id with the same
isAvailable value twice, at two different clock instants, leaves a final store state
different from issuing it once: the row's updatedAt carries the second instant. -/
theorem patch_timeslot_twice_counterexample :
    (patchTimeslotRoute n2 "1" true (patchTimeslotRoute n1 "1" true stSlots).2).2 ≠
      (patchTimeslotRoute n1 "1" true stSlots).2 := by
  decide

/-- Double update of the same slot id: the second `set` overwrites isAvailable and
updatedAt, so the store after two updates equals the store after the second alone. -/
theorem updateTimeslot_twice (nid : Int) (b : Bool) (t1 t2 : JsDate) (st : Store) :
    (DatabaseStorage.updateAvailabilityTimeSlot t2 nid b
        (DatabaseStorage.updateAvailabilityTimeSlot t1 nid b st).2).2 =
      (DatabaseStorage.updateAvailabilityTimeSlot t2 nid b st).2 := by
  have hlist := map_update_twice (fun s => idMatches nid s.id)
    (fun s => { s with isAvailable := b, updatedAt := t1 })
    (fun s => { s with isAvailable := b, updatedAt := t2 })
    (fun s hs => ⟨hs, rfl⟩) st.availabilityTimeSlots
  simp only [DatabaseStorage.updateAvailabilityTimeSlot]
  exact congrArg (fun l => { st with availabilityTimeSlots := l }) hlist

/-- An update whose id matches some slot returns the updated row: isAvailable set and
updatedAt refreshed to the update's instant. -/
theorem updateTimeslot_found (t : JsDate) (nid : Int) (b : Bool) (st : Store)
    (h : ∃ s ∈ st.availabilityTimeSlots, idMatches nid s.id = true) :
    ∃ s2 : AvailabilityTimeSlot,
      (DatabaseStorage.updateAvailabilityTimeSlot t nid b st).1 = some s2 ∧
      s2.isAvailable = b ∧ s2.updatedAt = t := by
  obtain ⟨s0, hs0, hm⟩ := h
  simp only [DatabaseStorage.updateAvailabilityTimeSlot]
  have hx : ((fun s => if idMatches nid s.id then
        ({ s with isAvailable := b, updatedAt := t } : AvailabilityTimeSlot)
      else s) s0) ∈
      st.availabilityTimeSlots.map (fun s => if idMatches nid s.id then
        ({ s with isAvailable := b, updatedAt := t } : AvailabilityTimeSlot)
      else s) :=
    List.mem_map_of_mem _ hs0
  have hpx : (fun s => idMatches nid s.id)
      ((fun s => if idMatches nid s.id then
          ({ s with isAvailable := b, updatedAt := t } : AvailabilityTimeSlot)
        else s) s0) = true :=
    (p_map_update (fun s => idMatches nid s.id)
      (fun s => { s with isAvailable := b, updatedAt := t }) (fun _ => rfl) s0).trans hm
  have hxf : ((fun s => if idMatches nid s.id then
        ({ s with isAvailable := b, updatedAt := t } : AvailabilityTimeSlot)
      else s) s0) ∈
      (st.availabilityTimeSlots.map (fun s => if idMatches nid s.id then
        ({ s with isAvailable := b, updatedAt := t } : AvailabilityTimeSlot)
      else s)).filter (fun s => idMatches nid s.id) :=
    List.mem_filter.mpr ⟨hx, hpx⟩
  cases hfl : (st.availabilityTimeSlots.map (fun s => if idMatches nid s.id then
        ({ s with isAvailable := b, updatedAt := t } : AvailabilityTimeSlot)
      else s)).filter (fun s => idMatches nid s.id) with
  | nil =>
    rw [hfl] at hxf
    exact absurd hxf (List.not_mem_nil _)
  | cons y ys =>
    have hy : y ∈ (st.availabilityTimeSlots.map (fun s => if idMatches nid s.id then
          ({ s with isAvailable := b, updatedAt := t } : AvailabilityTimeSlot)
        else s)).filter (fun s => idMatches nid s.id) := by
      rw [hfl]
      exact List.mem_cons_self y ys
    obtain ⟨hyl, hyp⟩ := List.mem_filter.mp hy
    obtain ⟨z, _, hyz, _⟩ := mem_map_update_elim (fun s => idMatches nid s.id)
      (fun s => { s with isAvailable := b, updatedAt := t }) _ y hyl hyp
    refine ⟨y, rfl, ?_, ?_⟩
    · rw [hyz]
    · rw [hyz]

/-- Updating a slot never changes its id, so a store containing a matching slot still
contains one after an update. -/
theorem updateTimeslot_preserves_match (t : JsDate) (nid : Int) (b : Bool) (st : Store)
    (h : ∃ s ∈ st.availabilityTimeSlots, idMatches nid s.id = true) :
    ∃ s ∈ (DatabaseStorage.updateAvailabilityTimeSlot t nid b st).2.availabilityTimeSlots,
      idMatches nid s.id = true := by
  obtain ⟨s0, hs0, hm⟩ := h
  refine ⟨(fun s => if idMatches nid s.id then
      ({ s with isAvailable := b, updatedAt := t } : AvailabilityTimeSlot)
    else s) s0, ?_, ?_⟩
  · exact List.mem_map_of_mem _ hs0
  · exact (p_map_update (fun s => idMatches nid s.id)
      (fun s => { s with isAvailable := b, updatedAt := t }) (fun _ => rfl) s0).trans hm

/-- Claim C8 (amended): issuing PATCH /api/availability/timeslots/:id with the same
isAvailable value twice yields the same final store state as issuing it once at the
instant of the second request — identical except that updatedAt carries the second
request's timestamp — and for an existing time slot id the second request succeeds:
it responds 200 with the updated row (isAvailable set, updatedAt the second instant). -/
theorem patch_timeslot_idempotent_mod_timestamp (idStr : String) (b : Bool)
    (t1 t2 : JsDate) (st : Store)
    (h : ∃ s ∈ st.availabilityTimeSlots, parseIntJs idStr = some s.id) :
    (patchTimeslotRoute t2 idStr b (patchTimeslotRoute t1 idStr b st).2).2 =
      (patchTimeslotRoute t2 idStr b st).2 ∧
    (patchTimeslotRoute t2 idStr b (patchTimeslotRoute t1 idStr b st).2).1.status = 200 ∧
    ∃ s2 : AvailabilityTimeSlot,
      (patchTimeslotRoute t2 idStr b (patchTimeslotRoute t1 idStr b st).2).1.body =
        Body.timeSlot (some s2) ∧ s2.isAvailable = b ∧ s2.updatedAt = t2 := by
  obtain ⟨s0, hs0, hparse⟩ := h
  have hm : ∃ s ∈ st.availabilityTimeSlots, idMatches s0.id s.id = true :=
    ⟨s0, hs0, by simp [idMatches]⟩
  have hm1 := updateTimeslot_preserves_match t1 s0.id b st hm
  obtain ⟨s2, heq, hb, ht⟩ := updateTimeslot_found t2 s0.id b
    (DatabaseStorage.updateAvailabilityTimeSlot t1 s0.id b st).2 hm1
  simp only [patchTimeslotRoute, hparse]
  refine ⟨updateTimeslot_twice s0.id b t1 t2 st, ?_, s2, ?_, hb, ht⟩
  · trivial
  · rw [heq]

theorem patch_timeslot_idempotent_mod_timestamp_witness :
    (patchTimeslotRoute n2 "1" true (patchTimeslotRoute n1 "1" true stSlots).2).2 =
      (patchTimeslotRoute n2 "1" true stSlots).2 ∧
    (patchTimeslotRoute n2 "1" true (patchTimeslotRoute n1 "1" true stSlots).2).1.status = 200 ∧
    ∃ s2 : AvailabilityTimeSlot,
      (patchTimeslotRoute n2 "1" true (patchTimeslotRoute n1 "1" true stSlots).2).1.body =
        Body.timeSlot (some s2) ∧ s2.isAvailable = true ∧ s2.updatedAt = n2 :=
  patch_timeslot_idempotent_mod_timestamp "1" true n1 n2 stSlots (by decide)
